import Mathlib

/-!
Verification of the RoomSense local server BLE gateway
(`src/webserver/bletomqtt/main.py` and `main_simulation.py`).

The development shallowly embeds:
  * `BLEPeripheral._parse_sensor_data` (notification decoder), together with
    models of the Python library operations it relies on: strict UTF-8
    decoding, `json.loads` on the JSON subset the gateway exchanges, and
    `float()` on decimal literals;
  * the `BLEPeripheral.connect_and_listen` retry loop as a deterministic
    function of a script of per-attempt outcomes, producing the trace of
    status changes and retry sleeps;
  * `BLEConnectionManager` state and its operations
    (`register_pairing_request`, `clear_pairing_request`, `submit_pin`,
    `scan_for_devices`, `connect_to_device`, `disconnect_from_device`),
    with Python dicts rendered as insertion-ordered association lists.
-/

/-! ### Python dict / string helpers -/

/-- Lookup in an insertion-ordered association list (Python `d.get(k)` /
`d[k]` on the keys that exist). -/
def dictGet {β : Type} : List (String × β) → String → Option β
  | [], _ => none
  | (k', v) :: t, k => if k' = k then some v else dictGet t k

/-- Python `d[k] = v`: replace in place when the key exists, append otherwise. -/
def dictInsert {β : Type} : List (String × β) → String → β → List (String × β)
  | [], k, v => [(k, v)]
  | (k', v') :: t, k, v =>
      if k' = k then (k, v) :: t else (k', v') :: dictInsert t k v

/-- Python `d.pop(k, None)` / guarded `del d[k]`: drop the entry when present. -/
def dictRemove {β : Type} : List (String × β) → String → List (String × β)
  | [], _ => []
  | (k', v') :: t, k => if k' = k then t else (k', v') :: dictRemove t k

/-- The key list of an association list. -/
def dictKeys {β : Type} (l : List (String × β)) : List String := l.map (·.1)

/-- `p` occurs as a leading segment of `l`. -/
def charsLead : List Char → List Char → Bool
  | [], _ => true
  | _ :: _, [] => false
  | a :: as, b :: bs => a = b && charsLead as bs

/-- `pat` occurs somewhere inside `l` (Python `pat in s`). -/
def charsHasInfix : List Char → List Char → Bool
  | [], pat => charsLead pat []
  | a :: t, pat => charsLead pat (a :: t) || charsHasInfix t pat

/-- Python substring test `pat in s`. -/
def strHasInfix (s pat : String) : Bool := charsHasInfix s.data pat.data

/-- Python `s.startswith(pat)`. -/
def strStarts (s pat : String) : Bool := charsLead pat.data s.data

/-- Python `str.upper()` (over the code points, ASCII-faithful). -/
def pyToUpper (s : String) : String := String.mk (s.data.map Char.toUpper)

/-- Python `str.lower()` (over the code points, ASCII-faithful). -/
def pyToLower (s : String) : String := String.mk (s.data.map Char.toLower)

/-- Python `normalize_mac_address`: uppercase and dashes to colons. -/
def normalizeMac (address : String) : String :=
  String.mk ((pyToUpper address).data.map (fun c => if c = '-' then ':' else c))

/-! ### UTF-8 decoding (`bytes.decode("utf-8")`, strict) -/

/-- Is `b` a UTF-8 continuation byte. -/
def utf8Cont (b : Nat) : Bool := 128 ≤ b && b < 192

/-- Strict UTF-8 decoding of a byte list into code points, with the standard
overlong/surrogate/range rejections of Python's strict decoder. -/
def utf8Decode : List Nat → Option (List Char)
  | [] => some []
  | b :: rest =>
    if b < 128 then (utf8Decode rest).map (fun cs => Char.ofNat b :: cs)
    else if b < 192 then none
    else if b < 224 then
      match rest with
      | b1 :: rest' =>
        if utf8Cont b1 then
          let cp := (b - 192) * 64 + (b1 - 128)
          if cp < 128 then none
          else (utf8Decode rest').map (fun cs => Char.ofNat cp :: cs)
        else none
      | [] => none
    else if b < 240 then
      match rest with
      | b1 :: b2 :: rest' =>
        if utf8Cont b1 && utf8Cont b2 then
          let cp := (b - 224) * 4096 + (b1 - 128) * 64 + (b2 - 128)
          if cp < 2048 then none
          else if 55296 ≤ cp && cp < 57344 then none
          else (utf8Decode rest').map (fun cs => Char.ofNat cp :: cs)
        else none
      | _ => none
    else if b < 248 then
      match rest with
      | b1 :: b2 :: b3 :: rest' =>
        if utf8Cont b1 && utf8Cont b2 && utf8Cont b3 then
          let cp := (b - 240) * 262144 + (b1 - 128) * 4096 + (b2 - 128) * 64 + (b3 - 128)
          if cp < 65536 then none
          else if 1114112 ≤ cp then none
          else (utf8Decode rest').map (fun cs => Char.ofNat cp :: cs)
        else none
      | _ => none
    else none

/-- Strict UTF-8 decoding into a string. -/
def utf8DecodeBytes (l : List Nat) : Option String :=
  (utf8Decode l).map (fun cs => String.mk cs)

/-! ### Python text helpers -/

/-- ASCII whitespace recognised by Python `str.strip()`. -/
def isPySpace (c : Char) : Bool :=
  c = ' ' || c = '\t' || c = '\n' || c = '\r' || c = Char.ofNat 11 || c = Char.ofNat 12

/-- Python `str.strip()`. -/
def pyStrip (s : String) : String :=
  String.mk (((s.data.dropWhile isPySpace).reverse.dropWhile isPySpace).reverse)

/-- ASCII decimal digit. -/
def isDig (c : Char) : Bool := '0' ≤ c && c ≤ '9'

/-- Digits to a natural number. -/
def digitsToNat (l : List Char) : Nat :=
  l.foldl (fun acc c => acc * 10 + (c.toNat - 48)) 0

/-- Python `float()` on an already stripped string: an optional sign, a
decimal mantissa with at least one digit, and an optional exponent.
(The special values inf and nan are outside this embedding's number
domain; no theorem below evaluates the model on them.) -/
def pyFloat (s : String) : Option Rat :=
  let cs := s.data
  let sgncs : Rat × List Char :=
    match cs with
    | '+' :: t => (1, t)
    | '-' :: t => (-1, t)
    | t => (1, t)
  let sgn := sgncs.1
  let cs1 := sgncs.2
  let ip := cs1.takeWhile isDig
  let cs2 := cs1.dropWhile isDig
  let fraccs : List Char × List Char :=
    match cs2 with
    | '.' :: t => (t.takeWhile isDig, t.dropWhile isDig)
    | t => ([], t)
  let fp := fraccs.1
  let cs3 := fraccs.2
  if ip.isEmpty && fp.isEmpty then none
  else
    let expcs : Bool × Int × List Char :=
      match cs3 with
      | 'e' :: t =>
        let sgt : Int × List Char :=
          match t with
          | '+' :: u => (1, u)
          | '-' :: u => (-1, u)
          | u => (1, u)
        let ed := sgt.2.takeWhile isDig
        if ed.isEmpty then (false, 0, sgt.2)
        else (true, sgt.1 * (digitsToNat ed : Int), sgt.2.dropWhile isDig)
      | 'E' :: t =>
        let sgt : Int × List Char :=
          match t with
          | '+' :: u => (1, u)
          | '-' :: u => (-1, u)
          | u => (1, u)
        let ed := sgt.2.takeWhile isDig
        if ed.isEmpty then (false, 0, sgt.2)
        else (true, sgt.1 * (digitsToNat ed : Int), sgt.2.dropWhile isDig)
      | t => (true, 0, t)
    if expcs.1 = false then none
    else if expcs.2.2.isEmpty = false then none
    else
      some (sgn * ((digitsToNat ip : Rat)
              + (digitsToNat fp : Rat) / (10 : Rat) ^ fp.length)
            * (10 : Rat) ^ (expcs.2.1))

/-! ### JSON values and `json.loads` -/

/-- JSON values as produced by `json.loads`. -/
inductive JVal where
  | null : JVal
  | jbool : Bool → JVal
  | jnum : Rat → JVal
  | jstr : String → JVal
  | jarr : List JVal → JVal
  | jobj : List (String × JVal) → JVal

/-- JSON whitespace accepted between tokens by `json.loads`. -/
def jSkipWs (l : List Char) : List Char :=
  l.dropWhile (fun c => c = ' ' || c = '\t' || c = '\n' || c = '\r')

/-- The character `LEFT CURLY BRACKET`. -/
def lcurly : Char := Char.ofNat 123

/-- The character `RIGHT CURLY BRACKET`. -/
def rcurly : Char := Char.ofNat 125

/-- JSON string body after the opening quote, with the common escapes. -/
def jString : Nat → List Char → Option (String × List Char)
  | 0, _ => none
  | _ + 1, [] => none
  | fuel + 1, c :: t =>
    if c = '"' then some ("", t)
    else if c = '\\' then
      match t with
      | e :: t' =>
        let esc : Option Char :=
          if e = '"' then some '"'
          else if e = '\\' then some '\\'
          else if e = '/' then some '/'
          else if e = 'n' then some '\n'
          else if e = 't' then some '\t'
          else if e = 'r' then some '\r'
          else if e = 'b' then some (Char.ofNat 8)
          else if e = 'f' then some (Char.ofNat 12)
          else none
        match esc with
        | some ch => (jString fuel t').map (fun p => (String.mk (ch :: p.1.data), p.2))
        | none => none
      | [] => none
    else (jString fuel t).map (fun p => (String.mk (c :: p.1.data), p.2))

/-- JSON number literal to a rational, returning the unread rest. -/
def jNumber (cs : List Char) : Option (Rat × List Char) :=
  let sgncs : Rat × List Char :=
    match cs with
    | '-' :: t => (-1, t)
    | t => (1, t)
  let ip := sgncs.2.takeWhile isDig
  let cs2 := sgncs.2.dropWhile isDig
  if ip.isEmpty then none
  else
    let fraccs : Option (List Char × List Char) :=
      match cs2 with
      | '.' :: t =>
        let fd := t.takeWhile isDig
        if fd.isEmpty then none else some (fd, t.dropWhile isDig)
      | t => some ([], t)
    match fraccs with
    | none => none
    | some (fp, cs3) =>
      let expcs : Option (Int × List Char) :=
        match cs3 with
        | 'e' :: t =>
          let sgt : Int × List Char :=
            match t with
            | '+' :: u => (1, u)
            | '-' :: u => (-1, u)
            | u => (1, u)
          let ed := sgt.2.takeWhile isDig
          if ed.isEmpty then none
          else some (sgt.1 * (digitsToNat ed : Int), sgt.2.dropWhile isDig)
        | 'E' :: t =>
          let sgt : Int × List Char :=
            match t with
            | '+' :: u => (1, u)
            | '-' :: u => (-1, u)
            | u => (1, u)
          let ed := sgt.2.takeWhile isDig
          if ed.isEmpty then none
          else some (sgt.1 * (digitsToNat ed : Int), sgt.2.dropWhile isDig)
        | t => some (0, t)
      match expcs with
      | none => none
      | some (ev, cs4) =>
        some (sgncs.1 * ((digitsToNat ip : Rat)
                + (digitsToNat fp : Rat) / (10 : Rat) ^ fp.length)
              * (10 : Rat) ^ ev, cs4)

mutual

/-- Recursive-descent JSON parser (fuel-indexed), covering the value forms
`json.loads` yields for the gateway's payloads. -/
def jParse : Nat → List Char → Option (JVal × List Char)
  | 0, _ => none
  | fuel + 1, cs =>
    match jSkipWs cs with
    | [] => none
    | c :: t =>
      if c = 'n' then
        match t with
        | 'u' :: 'l' :: 'l' :: r => some (JVal.null, r)
        | _ => none
      else if c = 't' then
        match t with
        | 'r' :: 'u' :: 'e' :: r => some (JVal.jbool true, r)
        | _ => none
      else if c = 'f' then
        match t with
        | 'a' :: 'l' :: 's' :: 'e' :: r => some (JVal.jbool false, r)
        | _ => none
      else if c = '"' then
        (jString (t.length + 1) t).map (fun p => (JVal.jstr p.1, p.2))
      else if c = '[' then
        match jSkipWs t with
        | c2 :: t2 => if c2 = ']' then some (JVal.jarr [], t2) else jArrItems fuel t []
        | [] => none
      else if c = lcurly then
        match jSkipWs t with
        | c2 :: t2 => if c2 = rcurly then some (JVal.jobj [], t2) else jObjItems fuel t []
        | [] => none
      else
        match jNumber (c :: t) with
        | some (q, r) => some (JVal.jnum q, r)
        | none => none

/-- Comma-separated array items up to the closing bracket. -/
def jArrItems : Nat → List Char → List JVal → Option (JVal × List Char)
  | 0, _, _ => none
  | fuel + 1, cs, acc =>
    match jParse fuel cs with
    | none => none
    | some (v, r) =>
      match jSkipWs r with
      | ',' :: r2 => jArrItems fuel r2 (acc ++ [v])
      | ']' :: r2 => some (JVal.jarr (acc ++ [v]), r2)
      | _ => none

/-- Comma-separated `"key": value` members up to the closing brace; a
repeated key overwrites the earlier value, as in Python dicts. -/
def jObjItems : Nat → List Char → List (String × JVal) → Option (JVal × List Char)
  | 0, _, _ => none
  | fuel + 1, cs, acc =>
    match jSkipWs cs with
    | '"' :: t =>
      match jString (t.length + 1) t with
      | none => none
      | some (k, r) =>
        match jSkipWs r with
        | ':' :: r2 =>
          match jParse fuel r2 with
          | none => none
          | some (v, r3) =>
            match jSkipWs r3 with
            | ',' :: r4 => jObjItems fuel r4 (dictInsert acc k v)
            | c4 :: r4 =>
              if c4 = rcurly then some (JVal.jobj (dictInsert acc k v), r4) else none
            | [] => none
        | _ => none
    | _ => none

end

/-- Model of `json.loads`: parse one document and require only whitespace
after it; `none` stands for a raised `JSONDecodeError`. -/
def jsonLoads (s : String) : Option JVal :=
  match jParse (s.data.length * 2 + 16) s.data with
  | some (v, rest) => if (jSkipWs rest).isEmpty then some v else none
  | none => none

/-! ### The notification decoder `BLEPeripheral._parse_sensor_data` -/

/-- Python `sensor_type_hint or "unknown"` (empty and missing hints are falsy). -/
def hintOr (h : Option String) : String :=
  match h with
  | none => "unknown"
  | some s => if s = "" then "unknown" else s

/-- Python `parsed.get(k, default)` on a decoded JSON object: a present
`null` value surfaces as Python `None`, a missing key yields the default. -/
def pyGetD (kvs : List (String × JVal)) (k : String) (dflt : JVal) : Option JVal :=
  match dictGet kvs k with
  | some JVal.null => none
  | some v => some v
  | none => some dflt

/-- Python `parsed.get(k)`: a missing key or a present `null` both give `None`. -/
def pyGet (kvs : List (String × JVal)) (k : String) : Option JVal :=
  match dictGet kvs k with
  | some JVal.null => none
  | some v => some v
  | none => none

/-- The first `try` block of `_parse_sensor_data`: decode the payload as
UTF-8 text, strip it, parse it with `json.loads`, and take
`parsed.get("type", hint or "unknown")` and `parsed.get("value")`.
`Except.error` marks any exception raised inside the block: a
`UnicodeDecodeError`, a `JSONDecodeError`, or the `AttributeError` from
calling `.get` on a decoded non-object. -/
def jsonPathE (data : List Nat) (hint : Option String) :
    Except Unit (Option JVal × Option JVal) :=
  match utf8DecodeBytes data with
  | none => Except.error ()
  | some s =>
    match jsonLoads (pyStrip s) with
    | none => Except.error ()
    | some (JVal.jobj kvs) =>
      Except.ok (pyGetD kvs "type" (JVal.jstr (hintOr hint)), pyGet kvs "value")
    | some _ => Except.error ()

/-- The fallback `try` block of `_parse_sensor_data`:
`float(data.decode().strip())` with the hint-or-"unknown" type; its own
`except` clause turns any failure (including a second `UnicodeDecodeError`)
into `(None, None)`. -/
def fallbackParse (data : List Nat) (hint : Option String) :
    Option JVal × Option JVal :=
  match utf8DecodeBytes data with
  | none => (none, none)
  | some s =>
    match pyFloat (pyStrip s) with
    | some q => (some (JVal.jstr (hintOr hint)), some (JVal.jnum q))
    | none => (none, none)

/-- `BLEPeripheral._parse_sensor_data` with exception flow made explicit:
the result is `Except.ok` for a normal return and `Except.error` would mark
an exception escaping to the caller.  An empty payload returns
`(None, None)` at once; otherwise the structured path is tried and any of
its exceptions are caught, falling back to the plain-number path. -/
def parseSensorDataE (data : List Nat) (hint : Option String) :
    Except Unit (Option JVal × Option JVal) :=
  if data.isEmpty then Except.ok (none, none)
  else
    match jsonPathE data hint with
    | Except.ok r => Except.ok r
    | Except.error _ => Except.ok (fallbackParse data hint)

/-- The decoder's returned pair (total view of `parseSensorDataE`). -/
def parseSensorData (data : List Nat) (hint : Option String) :
    Option JVal × Option JVal :=
  match parseSensorDataE data hint with
  | Except.ok r => r
  | Except.error _ => (none, none)

/-! ### The `BLEPeripheral.connect_and_listen` retry loop

The loop is embedded as a deterministic function of a script of per-attempt
outcomes.  Each `AttemptSpec` fixes what the transport does during one
iteration; the run yields the final peripheral state together with the trace
of externally observable status assignments and retry sleeps. -/

/-- The exception caught by a surrounding handler: `bleakLike` covers the
`(BleakError, asyncio.TimeoutError)` clause (carrying the failure text used
for classification), `otherExn` the generic `Exception` clause. -/
inductive RaiseKind where
  | bleakLike : String → RaiseKind
  | otherExn : RaiseKind
deriving DecidableEq

/-- Outcome of a single awaited transport step. -/
inductive StepRes where
  | ok : StepRes
  | exn : RaiseKind → StepRes
deriving DecidableEq

/-- Outcome of the explicit `client.pair()` step: success, the 60-second
`asyncio.wait_for` timeout, or an exception from the pairing machinery. -/
inductive PairRes where
  | ok : PairRes
  | timeout : PairRes
  | exn : PairRes
deriving DecidableEq

/-- One iteration of the connection loop, as decided by the environment:
the transport connect, the pairing step, the post-pairing metadata read,
the notification subscription, and whether the streaming session ends
because `stop()` was requested (`sessionStop`) or by a spontaneous
disconnect. -/
structure AttemptSpec where
  connect : StepRes
  pair : PairRes
  metaOk : Bool
  notify : StepRes
  sessionStop : Bool
deriving DecidableEq

/-- Mutable fields of `BLEPeripheral` read or written by the loop. -/
structure PState where
  status : String
  pairingFailed : Bool
  stopping : Bool
  backoff : Nat
deriving DecidableEq

/-- Externally observable happenings of the loop: a `self.status`
assignment, or an `asyncio.sleep` of a retry delay. -/
inductive LoopEvent where
  | statusSet : String → LoopEvent
  | sleep : Nat → LoopEvent
deriving DecidableEq

/-- The classification applied by the `(BleakError, TimeoutError)` handler:
the lowercased failure text contains one of auth / pair / encrypt / security. -/
def classifyMsg (msg : String) : Bool :=
  let m := pyToLower msg
  strHasInfix m "auth" || strHasInfix m "pair" || strHasInfix m "encrypt" ||
    strHasInfix m "security"

/-- Whether a caught exception is classified as pairing-related. -/
def pairingMsg : RaiseKind → Bool
  | RaiseKind.bleakLike msg => classifyMsg msg
  | RaiseKind.otherExn => false

/-- The status written by the outer exception handlers. -/
def outerStatus (k : RaiseKind) : String :=
  if pairingMsg k then "pairing_failed" else "error"

/-- The state produced by the outer exception handlers. -/
def outerState (s : PState) (k : RaiseKind) : PState :=
  if pairingMsg k then { s with pairingFailed := true, status := "pairing_failed" }
  else { s with status := "error" }

/-- One iteration of the `while not self._stopping` body, following the
source control flow: connect, pair (its two failure handlers set
`_pairing_failed` and break), metadata read (failure likewise), status
`connected`, notification subscription (failure raises into the outer
handlers), `backoff = 1`, then the streaming wait until stop or disconnect.
Returns the new state, the events of the iteration, and whether the body
executed a direct `break`. -/
def runAttempt (s : PState) (a : AttemptSpec) : PState × List LoopEvent × Bool :=
  match a.connect with
  | StepRes.exn k =>
    (outerState { s with status := "connecting" } k,
     [LoopEvent.statusSet "connecting", LoopEvent.statusSet (outerStatus k)], false)
  | StepRes.ok =>
    match a.pair with
    | PairRes.timeout =>
      ({ s with pairingFailed := true, status := "pairing_failed" },
       [LoopEvent.statusSet "connecting", LoopEvent.statusSet "authenticating",
        LoopEvent.statusSet "pairing_failed"], true)
    | PairRes.exn =>
      ({ s with pairingFailed := true, status := "pairing_failed" },
       [LoopEvent.statusSet "connecting", LoopEvent.statusSet "authenticating",
        LoopEvent.statusSet "pairing_failed"], true)
    | PairRes.ok =>
      if a.metaOk then
        match a.notify with
        | StepRes.exn k =>
          (outerState { s with status := "error" } k,
           [LoopEvent.statusSet "connecting", LoopEvent.statusSet "authenticating",
            LoopEvent.statusSet "connected", LoopEvent.statusSet "error",
            LoopEvent.statusSet (outerStatus k)], false)
        | StepRes.ok =>
          if a.sessionStop then
            ({ s with status := "connected", backoff := 1, stopping := true },
             [LoopEvent.statusSet "connecting", LoopEvent.statusSet "authenticating",
              LoopEvent.statusSet "connected"], false)
          else
            ({ s with status := "disconnected", backoff := 1 },
             [LoopEvent.statusSet "connecting", LoopEvent.statusSet "authenticating",
              LoopEvent.statusSet "connected", LoopEvent.statusSet "disconnected"],
             false)
      else
        ({ s with pairingFailed := true, status := "pairing_failed" },
         [LoopEvent.statusSet "connecting", LoopEvent.statusSet "authenticating",
          LoopEvent.statusSet "pairing_failed"], true)

/-- The retry loop: after each non-breaking iteration it checks
`self._stopping or self._pairing_failed`, otherwise sleeps
`max(backoff, 5)` and doubles the backoff capped at 30.  The script lists
the outcomes the environment supplies; a run that exhausts the script
simply reports the state and trace so far. -/
def runLoop : PState → List AttemptSpec → PState × List LoopEvent
  | s, [] => (s, [])
  | s, a :: rest =>
    if s.stopping then (s, [])
    else
      let r := runAttempt s a
      if r.2.2 || r.1.stopping || r.1.pairingFailed then (r.1, r.2.1)
      else
        let s2 := { r.1 with backoff := min (r.1.backoff * 2) 30 }
        let rr := runLoop s2 rest
        (rr.1, r.2.1 ++ LoopEvent.sleep (max r.1.backoff 5) :: rr.2)

/-- The peripheral state at task start (`BLEPeripheral.__init__` and
`backoff = 1`). -/
def initPState : PState := ⟨"disconnected", false, false, 1⟩

/-- The sleep durations of a trace, in order. -/
def sleepsOf (evs : List LoopEvent) : List Nat :=
  evs.filterMap (fun e =>
    match e with
    | LoopEvent.sleep n => some n
    | LoopEvent.statusSet _ => none)

/-- A plain transport failure: `client.connect()` raises a generic
exception whose text is not pairing-related. -/
def tfAttempt : AttemptSpec :=
  ⟨StepRes.exn RaiseKind.otherExn, PairRes.ok, true, StepRes.ok, false⟩

/-- A fully successful connection that later ends by spontaneous disconnect. -/
def okAttempt : AttemptSpec := ⟨StepRes.ok, PairRes.ok, true, StepRes.ok, false⟩

/-- An attempt whose explicit pairing step times out. -/
def pairTimeoutAttempt : AttemptSpec :=
  ⟨StepRes.ok, PairRes.timeout, true, StepRes.ok, false⟩

/-- Whether the iteration's failure is classified as pairing-related by the
code (an exception from the pairing or metadata step, or caught failure
text containing one of the keywords). -/
def classifiedPairing (a : AttemptSpec) : Bool :=
  match a.connect with
  | StepRes.exn k => pairingMsg k
  | StepRes.ok =>
    match a.pair with
    | PairRes.timeout => true
    | PairRes.exn => true
    | PairRes.ok =>
      if a.metaOk then
        match a.notify with
        | StepRes.exn k => pairingMsg k
        | StepRes.ok => false
      else true

/-- Whether the iteration makes the loop terminate (pairing-related
failure, or a stop request during the streaming session). -/
def attemptStops (a : AttemptSpec) : Bool :=
  classifiedPairing a ||
    (match a.connect, a.pair, a.notify with
     | StepRes.ok, PairRes.ok, StepRes.ok => a.metaOk && a.sessionStop
     | _, _, _ => false)

/-! ### The `BLEConnectionManager` -/

/-- A transport-level device handle from a scan (`BLEDevice` plus the
advertisement's local name). -/
structure Device where
  address : String
  name : Option String
  localName : Option String
deriving DecidableEq

/-- The state of a pending-pairing completion handle (`asyncio.Future`):
`done()` is true for the resolved and cancelled states. -/
inductive FutState where
  | pending : FutState
  | resolved : String → FutState
  | cancelled : FutState
deriving DecidableEq

/-- A managed peripheral record (the `BLEPeripheral` fields the manager
reads, plus the identity of its background task). -/
structure PeriphRec where
  name : String
  status : String
  taskId : Nat
  stopRequested : Bool
deriving DecidableEq

/-- `BLEConnectionManager` state: the peripheral registry, the scan cache,
the pending pairing requests (address to completion-handle id), the handle
states, the per-address state-change events (`true` = set), and the next
background-task id. -/
structure Mgr where
  peripherals : List (String × PeriphRec)
  lastScan : List (String × Device)
  pending : List (String × Nat)
  futures : List (Nat × FutState)
  events : List (String × Bool)
  nextTask : Nat
deriving DecidableEq

/-- Future-table lookup. -/
def futGet : List (Nat × FutState) → Nat → Option FutState
  | [], _ => none
  | (k', v) :: t, k => if k' = k then some v else futGet t k

/-- Future-table update. -/
def futSet : List (Nat × FutState) → Nat → FutState → List (Nat × FutState)
  | [], k, v => [(k, v)]
  | (k', v') :: t, k, v => if k' = k then (k, v) :: t else (k', v') :: futSet t k v

/-- `signal_state_change`: set the address's event if one exists. -/
def signalStateChange (m : Mgr) (address : String) : Mgr :=
  let addr := pyToUpper address
  match dictGet m.events addr with
  | some _ => { m with events := dictInsert m.events addr true }
  | none => m

/-- `register_pairing_request`: store the handle under the uppercased
address (replacing any prior one) and signal the state change. -/
def registerPairingRequest (m : Mgr) (address : String) (fid : Nat) : Mgr :=
  let addr := pyToUpper address
  signalStateChange { m with pending := dictInsert m.pending addr fid } addr

/-- `clear_pairing_request`: drop the entry when present, then signal. -/
def clearPairingRequest (m : Mgr) (address : String) : Mgr :=
  let addr := pyToUpper address
  signalStateChange { m with pending := dictRemove m.pending addr } addr

/-- `submit_pin`: if a request is pending for the address and its handle is
not yet done, resolve it with the pin, signal, and report `true`; otherwise
report `false` with the state untouched. -/
def submitPin (m : Mgr) (address pin : String) : Mgr × Bool :=
  let addr := pyToUpper address
  match dictGet m.pending addr with
  | none => (m, false)
  | some fid =>
    match futGet m.futures fid with
    | some FutState.pending =>
      (signalStateChange { m with futures := futSet m.futures fid (FutState.resolved pin) }
        addr, true)
    | _ => (m, false)

/-- `get_state_event`: create the address's event (initially clear) when
missing. -/
def mgrEnsureEvent (m : Mgr) (address : String) : Mgr :=
  let addr := pyToUpper address
  match dictGet m.events addr with
  | some _ => m
  | none => { m with events := dictInsert m.events addr false }

/-- `clear_state_event`: reset the address's event when present. -/
def mgrClearEvent (m : Mgr) (address : String) : Mgr :=
  let addr := pyToUpper address
  match dictGet m.events addr with
  | some _ => { m with events := dictInsert m.events addr false }
  | none => m

/-- The advertised name used by the scan filter:
`d.name or adv.local_name or ""` with Python truthiness. -/
def scanName (d : Device) : String :=
  match d.name with
  | some s =>
    if s = "" then
      match d.localName with
      | some t => t
      | none => ""
    else s
  | none =>
    match d.localName with
    | some t => t
    | none => ""

/-- `TARGET_NAME_PREFIX`. -/
def targetNamePfx : String := "RoomSense-"

/-- `scan_for_devices` cache refill: clear the cache, then keep every
discovered device whose name starts with the target name filter (case
insensitively), keyed by address. -/
def scanUpdate (env : List Device) : List (String × Device) :=
  env.foldl
    (fun acc d =>
      if strStarts (pyToUpper (scanName d)) (pyToUpper targetNamePfx) then
        dictInsert acc d.address d
      else acc)
    []

/-- Manager-level observable actions during `connect_to_device` /
`disconnect_from_device`. -/
inductive MEvent where
  | scanned : MEvent
  | stoppedTask : Nat → MEvent
  | startedTask : Nat → MEvent
  | removedBluez : MEvent
deriving DecidableEq

/-- `device.name or "unknown"` for the fresh `BLEPeripheral`. -/
def recNameOf (d : Device) : String :=
  match d.name with
  | some s => if s = "" then "unknown" else s
  | none => "unknown"

/-- The tail of `connect_to_device` after the scan-cache check: clear stale
pairing state, remove the stale BlueZ bond, re-scan for a fresh handle,
fail when the device is still absent, otherwise prepare the state event and
create and start the fresh record. -/
def connectFresh2 (m : Mgr) (address : String) (env : List Device) (evs : List MEvent) :
    Mgr × Except Unit PeriphRec × List MEvent :=
  let m2 := clearPairingRequest m address
  let evs2 := evs ++ [MEvent.removedBluez]
  let m3 := { m2 with lastScan := scanUpdate env }
  let evs3 := evs2 ++ [MEvent.scanned]
  match dictGet m3.lastScan address with
  | none => (m3, Except.error (), evs3)
  | some d =>
    let m4 := mgrClearEvent (mgrEnsureEvent m3 address) address
    let rec0 : PeriphRec := ⟨recNameOf d, "disconnected", m4.nextTask, false⟩
    ({ m4 with peripherals := dictInsert m4.peripherals address rec0,
               nextTask := m4.nextTask + 1 },
     Except.ok rec0, evs3 ++ [MEvent.startedTask rec0.taskId])

/-- `connect_to_device` once any stale record is gone: when the address is
not in the scan cache, a quick scan tries to find it first (failing with
`ValueError` when it is still absent). -/
def connectFresh (m : Mgr) (address : String) (env : List Device) (evs : List MEvent) :
    Mgr × Except Unit PeriphRec × List MEvent :=
  match dictGet m.lastScan address with
  | none =>
    let m1 := { m with lastScan := scanUpdate env }
    match dictGet m1.lastScan address with
    | none => (m1, Except.error (), evs ++ [MEvent.scanned])
    | some _ => connectFresh2 m1 address env (evs ++ [MEvent.scanned])
  | some _ => connectFresh2 m address env evs

/-- `connect_to_device`: an existing record that is already `connected` is
returned unchanged; any other existing record is stopped and removed before
the fresh connection is prepared. -/
def connectToDevice (m : Mgr) (address : String) (env : List Device) :
    Mgr × Except Unit PeriphRec × List MEvent :=
  match dictGet m.peripherals address with
  | some ex =>
    if ex.status = "connected" then (m, Except.ok ex, [])
    else
      connectFresh { m with peripherals := dictRemove m.peripherals address }
        address env [MEvent.stoppedTask ex.taskId]
  | none => connectFresh m address env []

/-- `disconnect_from_device` (hardware manager): pop the record for the
normalized address, stop its task when one was present, and drop the
address's state-change event; the operation raises nothing either way. -/
def disconnectFromDevice (m : Mgr) (address : String) :
    Mgr × Except Unit Unit × List MEvent :=
  let addr := normalizeMac address
  match dictGet m.peripherals addr with
  | some conn =>
    ({ m with peripherals := dictRemove m.peripherals addr,
              events := dictRemove m.events addr },
     Except.ok (), [MEvent.stoppedTask conn.taskId])
  | none =>
    ({ m with events := dictRemove m.events addr }, Except.ok (), [])

/-- `SimulatedConnectionManager.disconnect_from_device`
(`main_simulation.py`): raises `LookupError` when no record exists,
otherwise removes the record and stops it. -/
def simDisconnectFromDevice (peris : List (String × PeriphRec)) (address : String) :
    Except Unit (List (String × PeriphRec)) :=
  match dictGet peris address with
  | none => Except.error ()
  | some _ => Except.ok (dictRemove peris address)

/-- The manager at process start. -/
def mgr0 : Mgr := ⟨[], [], [], [], [], 0⟩

/-! ### Claims about the notification decoder (C4, C5) -/

/-- Claim C4, counterexample.  The claim states that a 2-byte payload is
decoded as a signed little-endian 16-bit integer so that `0xFFFF` yields
value `-1`, and that a 4-byte payload `0x0000A040` yields `5.0`.  The code
has no positional binary interpretation: its fallback parses the payload as
UTF-8 text, so both payloads (which are not valid UTF-8) decode to
`(None, None)`. -/
theorem binary_payload_not_positional :
    parseSensorData [255, 255] none = (none, none) ∧
    (parseSensorData [255, 255] none).2 ≠ some (JVal.jnum (-1)) ∧
    parseSensorData [0, 0, 160, 64] none = (none, none) := by
  refine ⟨rfl, ?_, rfl⟩
  rw [show parseSensorData [255, 255] none = (none, none) from rfl]
  exact fun h => Option.noConfusion h

/-- Claim C4, amended.  If the payload is not parseable as a structured
object, the decoder attempts to parse it as UTF-8 text containing a plain
decimal number; there is no positional binary interpretation, so every
payload that is not valid UTF-8 text decodes to `(absent, absent)`. -/
theorem nonutf8_payload_decodes_none (data : List Nat) (hint : Option String)
    (h : utf8DecodeBytes data = none) :
    parseSensorData data hint = (none, none) := by
  cases data with
  | nil =>
    rw [show utf8DecodeBytes [] = some (String.mk []) from rfl] at h
    exact Option.noConfusion h
  | cons b t =>
    simp [parseSensorData, parseSensorDataE, jsonPathE, fallbackParse, h]

/-- Witness for the amended C4 at the 4-byte payload `0x0000A040`. -/
theorem nonutf8_payload_decodes_none_witness :
    utf8DecodeBytes [0, 0, 160, 64] = none ∧
    parseSensorData [0, 0, 160, 64] (some "temperature") = (none, none) :=
  ⟨rfl, nonutf8_payload_decodes_none [0, 0, 160, 64] (some "temperature") rfl⟩

/-- Claim C5.  The decoder returns `(absent, absent)` for the empty
payload, and for every payload and hint the exception-explicit semantics
returns normally (`Except.ok`): no exception reaches the caller. -/
theorem decoder_total_and_empty_none :
    (∀ hint : Option String, parseSensorData [] hint = (none, none)) ∧
    (∀ (data : List Nat) (hint : Option String),
      ∃ r, parseSensorDataE data hint = Except.ok r) := by
  refine ⟨fun hint => rfl, fun data hint => ?_⟩
  unfold parseSensorDataE
  by_cases hd : data.isEmpty = true
  · simp [hd]
  · simp only [hd, if_false]
    cases hj : jsonPathE data hint with
    | ok r => exact ⟨r, rfl⟩
    | error e => exact ⟨fallbackParse data hint, rfl⟩

/-! ### Claims about the connection loop (C1, C2, C3) -/

/-- Within one iteration, the status `connected` is written exactly when
the transport connect, the pairing step, and the metadata read all
succeed; the notification subscription plays no part in reaching it. -/
lemma connected_event_iff (s : PState) (a : AttemptSpec) :
    LoopEvent.statusSet "connected" ∈ (runAttempt s a).2.1 ↔
      (a.connect = StepRes.ok ∧ a.pair = PairRes.ok ∧ a.metaOk = true) := by
  rcases a with ⟨c, p, mo, nt, ss⟩
  cases c with
  | exn k =>
    cases hk : pairingMsg k <;>
      simp [runAttempt, outerStatus, hk]
  | ok =>
    cases p with
    | timeout => simp [runAttempt]
    | exn => simp [runAttempt]
    | ok =>
      cases mo with
      | false => simp [runAttempt]
      | true =>
        cases nt with
        | exn k => cases hk : pairingMsg k <;> simp [runAttempt, outerStatus, hk]
        | ok => cases ss <;> simp [runAttempt]

/-- Claim C1, counterexample.  In the execution in which connect, pairing
and the metadata read succeed but the notification subscription fails, the
device is nevertheless observable with status `connected` (the status is
set before `start_notify` is attempted), contradicting the claim that a
device whose subscription failed is never observable as `connected`. -/
theorem connected_observed_despite_notify_failure :
    LoopEvent.statusSet "connected"
        ∈ (runLoop initPState
            [⟨StepRes.ok, PairRes.ok, true, StepRes.exn RaiseKind.otherExn, false⟩]).2 ∧
    (⟨StepRes.ok, PairRes.ok, true, StepRes.exn RaiseKind.otherExn, false⟩
        : AttemptSpec).notify ≠ StepRes.ok := by
  decide

/-- Claim C1, amended.  The status becomes `connected` exactly when
pairing (if required) and the post-authentication metadata read succeed;
the notification subscription is attempted only afterwards (its failure
then moves the status to `error`).  Consequently, over a whole run of the
loop, `connected` is observed only if some iteration passed connect,
pairing and the metadata read. -/
theorem connected_iff_pair_and_metadata :
    (∀ (s : PState) (a : AttemptSpec),
      LoopEvent.statusSet "connected" ∈ (runAttempt s a).2.1 ↔
        (a.connect = StepRes.ok ∧ a.pair = PairRes.ok ∧ a.metaOk = true)) ∧
    (∀ (sc : List AttemptSpec) (s : PState),
      LoopEvent.statusSet "connected" ∈ (runLoop s sc).2 →
        ∃ a ∈ sc, a.connect = StepRes.ok ∧ a.pair = PairRes.ok ∧ a.metaOk = true) := by
  refine ⟨connected_event_iff, ?_⟩
  intro sc
  induction sc with
  | nil => intro s h; simp [runLoop] at h
  | cons a rest ih =>
    intro s h
    by_cases hs : s.stopping = true
    · simp [runLoop, hs] at h
    · simp only [Bool.not_eq_true] at hs
      rw [runLoop] at h
      simp only [hs, Bool.false_eq_true, if_false] at h
      by_cases hc : ((runAttempt s a).2.2 || (runAttempt s a).1.stopping
          || (runAttempt s a).1.pairingFailed) = true
      · simp only [hc, if_true] at h
        exact ⟨a, List.mem_cons_self a rest, (connected_event_iff s a).mp h⟩
      · simp only [hc, if_false] at h
        rcases List.mem_append.mp h with h1 | h2
        · exact ⟨a, List.mem_cons_self a rest, (connected_event_iff s a).mp h1⟩
        · rcases List.mem_cons.mp h2 with h3 | h4
          · exact absurd h3 (by simp)
          · obtain ⟨b, hb, hprops⟩ := ih _ h4
            exact ⟨b, List.mem_cons_of_mem a hb, hprops⟩

/-- Witness for the amended C1: in the single-success run, `connected` is
observed and the loop-level direction exhibits the successful iteration. -/
theorem connected_iff_pair_and_metadata_witness :
    ∃ a ∈ [okAttempt],
      a.connect = StepRes.ok ∧ a.pair = PairRes.ok ∧ a.metaOk = true :=
  connected_iff_pair_and_metadata.2 [okAttempt] initPState (by decide)

/-- An iteration that neither fails pairing-related nor carries a stop
request leaves the loop able to continue: no direct break, and the
stopping and pairing-failed flags stay clear. -/
lemma runAttempt_no_stop (s : PState) (a : AttemptSpec)
    (hs : s.stopping = false) (hp : s.pairingFailed = false)
    (ha : attemptStops a = false) :
    (runAttempt s a).2.2 = false ∧ (runAttempt s a).1.stopping = false ∧
      (runAttempt s a).1.pairingFailed = false := by
  rcases a with ⟨c, p, mo, nt, ss⟩
  cases c with
  | exn k =>
    have hk : pairingMsg k = false := by
      simpa [attemptStops, classifiedPairing] using ha
    simp [runAttempt, outerState, hk, hs, hp]
  | ok =>
    cases p with
    | timeout => simp [attemptStops, classifiedPairing] at ha
    | exn => simp [attemptStops, classifiedPairing] at ha
    | ok =>
      cases mo with
      | false => simp [attemptStops, classifiedPairing] at ha
      | true =>
        cases nt with
        | exn k =>
          have hk : pairingMsg k = false := by
            simpa [attemptStops, classifiedPairing] using ha
          simp [runAttempt, outerState, hk, hs, hp]
        | ok =>
          have hss : ss = false := by
            simpa [attemptStops, classifiedPairing] using ha
          simp [runAttempt, hss, hs, hp]

/-- An iteration whose failure is classified as pairing-related either
breaks directly or sets the pairing-failed flag. -/
lemma runAttempt_pairing_break (s : PState) (a : AttemptSpec)
    (ha : classifiedPairing a = true) :
    (runAttempt s a).2.2 = true ∨ (runAttempt s a).1.pairingFailed = true := by
  rcases a with ⟨c, p, mo, nt, ss⟩
  cases c with
  | exn k =>
    have hk : pairingMsg k = true := by simpa [classifiedPairing] using ha
    right; simp [runAttempt, outerState, hk]
  | ok =>
    cases p with
    | timeout => left; simp [runAttempt]
    | exn => left; simp [runAttempt]
    | ok =>
      cases mo with
      | false => left; simp [runAttempt]
      | true =>
        cases nt with
        | exn k =>
          have hk : pairingMsg k = true := by simpa [classifiedPairing] using ha
          right; simp [runAttempt, outerState, hk]
        | ok => simp [classifiedPairing] at ha

/-- Claim C2.  Once an iteration's failure is classified as
pairing-related (matching failure text, or an exception in the explicit
pairing or post-pairing-metadata step), the retry loop terminates: the rest
of the script is never consumed, so no further reconnect attempt happens. -/
theorem pairing_failure_stops_retry :
    ∀ (pre post : List AttemptSpec) (a : AttemptSpec) (s : PState),
      s.stopping = false → s.pairingFailed = false →
      (∀ b ∈ pre, attemptStops b = false) →
      classifiedPairing a = true →
      runLoop s (pre ++ a :: post) = runLoop s (pre ++ [a]) := by
  intro pre
  induction pre with
  | nil =>
    intro post a s hs hp _ hca
    rcases runAttempt_pairing_break s a hca with h | h <;>
      simp [runLoop, hs, h]
  | cons b pre ih =>
    intro post a s hs hp hpre hca
    have hb : attemptStops b = false := hpre b (List.mem_cons_self b pre)
    obtain ⟨h1, h2, h3⟩ := runAttempt_no_stop s b hs hp hb
    have ih' := ih post a
      ⟨(runAttempt s b).1.status, false, false, min ((runAttempt s b).1.backoff * 2) 30⟩
      rfl rfl (fun x hx => hpre x (List.mem_cons_of_mem b hx)) hca
    simp only [List.cons_append, runLoop, hs, Bool.false_eq_true, if_false,
      h1, h2, h3, Bool.or_self, Bool.or_false]
    simp only [List.append_eq]
    rw [ih']

/-- Witness for C2: one plain transport failure, then a pairing timeout;
a trailing scripted attempt is never consumed. -/
theorem pairing_failure_stops_retry_witness :
    (∀ b ∈ [tfAttempt], attemptStops b = false) ∧
    classifiedPairing pairTimeoutAttempt = true ∧
    runLoop initPState ([tfAttempt] ++ pairTimeoutAttempt :: [okAttempt])
      = runLoop initPState ([tfAttempt] ++ [pairTimeoutAttempt]) :=
  ⟨by decide, by decide,
   pairing_failure_stops_retry [tfAttempt] [okAttempt] pairTimeoutAttempt initPState
     rfl rfl (by decide) (by decide)⟩

/-- One plain transport failure: status goes `connecting` then `error`,
no break, only the status changed. -/
lemma runAttempt_tf (s : PState) :
    runAttempt s tfAttempt
      = ({ s with status := "error" },
         [LoopEvent.statusSet "connecting", LoopEvent.statusSet "error"], false) := rfl

/-- One fully successful connection ending in a spontaneous disconnect:
the backoff is reset to 1, no break. -/
lemma runAttempt_okA (s : PState) :
    runAttempt s okAttempt
      = ({ s with status := "disconnected", backoff := 1 },
         [LoopEvent.statusSet "connecting", LoopEvent.statusSet "authenticating",
          LoopEvent.statusSet "connected", LoopEvent.statusSet "disconnected"],
         false) := rfl

/-- The events of a run of consecutive plain transport failures starting
from backoff `b`. -/
def tfChunkEvs : Nat → Nat → List LoopEvent
  | _, 0 => []
  | b, n + 1 =>
    LoopEvent.statusSet "connecting" :: LoopEvent.statusSet "error"
      :: LoopEvent.sleep (max b 5) :: tfChunkEvs (min (b * 2) 30) n

/-- Shifting the doubling-capped-at-30 recurrence by one step. -/
lemma min_pow_shift (b n : Nat) :
    min (min (b * 2) 30 * 2 ^ n) 30 = min (b * 2 ^ (n + 1)) 30 := by
  rcases le_total (b * 2) 30 with h | h
  · rw [min_eq_left h]
    ring_nf
  · have hp : 1 ≤ 2 ^ n := Nat.one_le_two_pow
    have h1 : (30 : Nat) ≤ 30 * 2 ^ n := by nlinarith
    have h2 : (30 : Nat) ≤ b * 2 ^ (n + 1) := by
      have : b * 2 ^ (n + 1) = b * 2 * 2 ^ n := by ring
      nlinarith
    rw [min_eq_right h, min_eq_right h1, min_eq_right h2]

/-- Running a block of `n` plain transport failures before `rest`: the
trace extends by `tfChunkEvs` and the backoff becomes
`min (b * 2 ^ n) 30`, the stop and pairing-failed flags staying clear. -/
lemma runLoop_tf_chunk :
    ∀ (n : Nat) (s : PState) (rest : List AttemptSpec),
      s.stopping = false → s.pairingFailed = false → s.backoff ≤ 30 →
      ∃ st : String,
        runLoop s (List.replicate n tfAttempt ++ rest)
          = ((runLoop ⟨st, false, false, min (s.backoff * 2 ^ n) 30⟩ rest).1,
             tfChunkEvs s.backoff n
               ++ (runLoop ⟨st, false, false, min (s.backoff * 2 ^ n) 30⟩ rest).2) := by
  intro n
  induction n with
  | zero =>
    intro s rest hs hp hb
    refine ⟨s.status, ?_⟩
    rcases s with ⟨sst, pf, sp, b⟩
    dsimp only at hs hp hb ⊢
    subst hs; subst hp
    rw [pow_zero, mul_one, min_eq_left hb]
    simp [tfChunkEvs]
  | succ n ihn =>
    intro s rest hs hp hb
    rcases s with ⟨sst, pf, sp, b⟩
    dsimp only at hs hp hb ⊢
    subst hs; subst hp
    obtain ⟨st, hrec⟩ :=
      ihn ⟨"error", false, false, min (b * 2) 30⟩ rest rfl rfl (min_le_right _ _)
    refine ⟨st, ?_⟩
    rw [List.replicate_succ, List.cons_append]
    simp only [runLoop, runAttempt_tf]
    norm_num
    rw [hrec]
    simp only [min_pow_shift]
    simp [tfChunkEvs, min_pow_shift]

/-- `sleepsOf` distributes over append. -/
lemma sleepsOf_append (l₁ l₂ : List LoopEvent) :
    sleepsOf (l₁ ++ l₂) = sleepsOf l₁ ++ sleepsOf l₂ := by
  simp [sleepsOf]

/-- A status event contributes no sleep. -/
lemma sleepsOf_cons_status (s : String) (l : List LoopEvent) :
    sleepsOf (LoopEvent.statusSet s :: l) = sleepsOf l := rfl

/-- A sleep event contributes its duration. -/
lemma sleepsOf_cons_sleep (n : Nat) (l : List LoopEvent) :
    sleepsOf (LoopEvent.sleep n :: l) = n :: sleepsOf l := rfl

/-- The sleeps of a transport-failure block are
`max (min (b * 2 ^ i) 30) 5` for `i` from `0` to `n - 1`. -/
lemma sleepsOf_tfChunk :
    ∀ (n b : Nat), b ≤ 30 →
      sleepsOf (tfChunkEvs b n)
        = (List.range n).map (fun i => max (min (b * 2 ^ i) 30) 5) := by
  intro n
  induction n with
  | zero => intro b hb; simp [tfChunkEvs, sleepsOf]
  | succ n ih =>
    intro b hb
    rw [show tfChunkEvs b (n + 1)
        = LoopEvent.statusSet "connecting" :: LoopEvent.statusSet "error"
          :: LoopEvent.sleep (max b 5) :: tfChunkEvs (min (b * 2) 30) n from rfl]
    rw [List.range_succ_eq_map]
    simp only [sleepsOf_cons_status, sleepsOf_cons_sleep, List.map_cons, List.map_map]
    rw [show sleepsOf (tfChunkEvs (min (b * 2) 30) n)
        = (List.range n).map (fun i => max (min (min (b * 2) 30 * 2 ^ i) 30) 5)
        from ih (min (b * 2) 30) (min_le_right _ _)]
    congr 1
    · rw [pow_zero, mul_one, min_eq_left hb]
    · exact List.map_congr_left (fun i _ => by
        simp only [Function.comp_apply, min_pow_shift])

/-- Claim C3, counterexample.  After a single plain transport failure with
backoff still at its initial value 1, the delay actually slept is
`max(1, 5) = 5`, not the claimed 1: the 5-unit floor applies to every
retry, not only to pairing-adjacent failures. -/
theorem first_retry_delay_is_five :
    sleepsOf (runLoop initPState [tfAttempt]).2 = [5] ∧
    sleepsOf (runLoop initPState [tfAttempt]).2 ≠ [1] := by
  constructor
  · rfl
  · decide

/-- Claim C3, amended.  Before every retry the loop sleeps
`max(backoff, 5)` where the backoff doubles from 1 and is capped at 30, so
a run of consecutive plain transport failures sleeps
5, 5, 5, 8, 16, 30, 30, …; the 5-unit floor applies to every retry
(pairing-adjacent failures never retry at all), and after a fully
successful connection the backoff variable resets to 1, so the delays
after it restart at 5 and then follow the doubled sequence. -/
theorem retry_delay_sequence :
    (∀ n : Nat,
      sleepsOf (runLoop initPState (List.replicate n tfAttempt)).2
        = (List.range n).map (fun i => max (min (2 ^ i) 30) 5)) ∧
    (∀ n m : Nat,
      sleepsOf (runLoop initPState
          (List.replicate n tfAttempt ++ okAttempt :: List.replicate m tfAttempt)).2
        = (List.range n).map (fun i => max (min (2 ^ i) 30) 5)
          ++ 5 :: (List.range m).map (fun i => max (min (2 ^ (i + 1)) 30) 5)) := by
  constructor
  · intro n
    rw [show initPState = (⟨"disconnected", false, false, 1⟩ : PState) from rfl]
    obtain ⟨st, h⟩ := runLoop_tf_chunk n ⟨"disconnected", false, false, 1⟩ [] rfl rfl
      (by norm_num)
    rw [← List.append_nil (List.replicate n tfAttempt), h]
    simp only [runLoop, sleepsOf_append, sleepsOf_tfChunk n 1 (by norm_num)]
    simp [sleepsOf]
  · intro n m
    rw [show initPState = (⟨"disconnected", false, false, 1⟩ : PState) from rfl]
    obtain ⟨st, h⟩ := runLoop_tf_chunk n ⟨"disconnected", false, false, 1⟩
      (okAttempt :: List.replicate m tfAttempt) rfl rfl (by norm_num)
    rw [h, sleepsOf_append, sleepsOf_tfChunk n 1 (by norm_num)]
    simp only [runLoop, runAttempt_okA]
    norm_num
    obtain ⟨st2, h2⟩ := runLoop_tf_chunk m ⟨"disconnected", false, false, 2⟩ [] rfl rfl
      (by norm_num)
    rw [← List.append_nil (List.replicate m tfAttempt), h2]
    simp only [runLoop, sleepsOf_append, sleepsOf_cons_status, sleepsOf_cons_sleep,
      sleepsOf_tfChunk m 2 (by norm_num)]
    simp [sleepsOf, pow_succ']

/-! ### Claims about the connection manager (C6 — C10) -/

/-- Inserting returns the inserted value on lookup of its key. -/
lemma dictGet_dictInsert_self {β : Type} (l : List (String × β)) (k : String) (v : β) :
    dictGet (dictInsert l k v) k = some v := by
  induction l with
  | nil => simp [dictInsert, dictGet]
  | cons p t ih =>
    rcases p with ⟨k', v'⟩
    by_cases h : k' = k
    · simp [dictInsert, dictGet, h]
    · simp [dictInsert, dictGet, h, ih]

/-- Membership in the keys after an insert. -/
lemma mem_dictKeys_dictInsert {β : Type} (l : List (String × β)) (k : String) (v : β)
    (x : String) :
    x ∈ dictKeys (dictInsert l k v) ↔ x ∈ dictKeys l ∨ x = k := by
  induction l with
  | nil =>
    rw [show dictInsert ([] : List (String × β)) k v = [(k, v)] from rfl]
    rw [show dictKeys [(k, v)] = [k] from rfl]
    simp [dictKeys]
  | cons p t ih =>
    rcases p with ⟨k', v'⟩
    by_cases h : k' = k
    · subst h
      rw [show dictInsert ((k', v') :: t) k' v = (k', v) :: t from by simp [dictInsert]]
      rw [show dictKeys ((k', v) :: t) = k' :: dictKeys t from rfl,
          show dictKeys ((k', v') :: t) = k' :: dictKeys t from rfl]
      simp only [List.mem_cons]
      tauto
    · rw [show dictInsert ((k', v') :: t) k v = (k', v') :: dictInsert t k v from by
        simp [dictInsert, h]]
      rw [show dictKeys ((k', v') :: dictInsert t k v)
          = k' :: dictKeys (dictInsert t k v) from rfl,
          show dictKeys ((k', v') :: t) = k' :: dictKeys t from rfl]
      simp only [List.mem_cons, ih]
      tauto

/-- Inserting preserves distinctness of the keys. -/
lemma nodup_dictKeys_dictInsert {β : Type} (l : List (String × β)) (k : String) (v : β)
    (h : (dictKeys l).Nodup) : (dictKeys (dictInsert l k v)).Nodup := by
  induction l with
  | nil => simp [dictInsert, dictKeys]
  | cons p t ih =>
    rcases p with ⟨k', v'⟩
    rw [show dictKeys ((k', v') :: t) = k' :: dictKeys t from rfl] at h
    rw [List.nodup_cons] at h
    by_cases hk : k' = k
    · subst hk
      rw [show dictInsert ((k', v') :: t) k' v = (k', v) :: t from by
        simp [dictInsert]]
      rw [show dictKeys ((k', v) :: t) = k' :: dictKeys t from rfl]
      exact List.nodup_cons.mpr h
    · rw [show dictInsert ((k', v') :: t) k v = (k', v') :: dictInsert t k v from by
        simp [dictInsert, hk]]
      rw [show dictKeys ((k', v') :: dictInsert t k v)
          = k' :: dictKeys (dictInsert t k v) from rfl]
      refine List.nodup_cons.mpr ⟨?_, ih h.2⟩
      intro hmem
      rcases (mem_dictKeys_dictInsert t k v k').mp hmem with h1 | h2
      · exact h.1 h1
      · exact hk h2

/-- A key absent from the key list matches no entry. -/
lemma countP_key_eq_zero {β : Type} (t : List (String × β)) (k : String)
    (h : k ∉ dictKeys t) :
    t.countP (fun p => decide (p.1 = k)) = 0 := by
  induction t with
  | nil => simp
  | cons p t ih =>
    rcases p with ⟨k', v'⟩
    rw [show dictKeys ((k', v') :: t) = k' :: dictKeys t from rfl] at h
    rw [List.mem_cons] at h
    push_neg at h
    have hne : ¬ k' = k := fun hh => h.1 hh.symm
    simp [List.countP_cons, ih h.2, hne]

/-- With distinct keys, after an insert exactly one entry has the inserted
key. -/
lemma countP_dictInsert {β : Type} (l : List (String × β)) (k : String) (v : β)
    (h : (dictKeys l).Nodup) :
    (dictInsert l k v).countP (fun p => decide (p.1 = k)) = 1 := by
  induction l with
  | nil => simp [dictInsert]
  | cons p t ih =>
    rcases p with ⟨k', v'⟩
    rw [show dictKeys ((k', v') :: t) = k' :: dictKeys t from rfl] at h
    rw [List.nodup_cons] at h
    by_cases hk : k' = k
    · subst hk
      rw [show dictInsert ((k', v') :: t) k' v = (k', v) :: t from by simp [dictInsert]]
      simp [List.countP_cons, countP_key_eq_zero t k' h.1]
    · rw [show dictInsert ((k', v') :: t) k v = (k', v') :: dictInsert t k v from by
        simp [dictInsert, hk]]
      simp [List.countP_cons, hk, ih h.2]

/-- `signal_state_change` touches only the event map. -/
lemma signalStateChange_parts (m : Mgr) (a : String) :
    (signalStateChange m a).peripherals = m.peripherals ∧
    (signalStateChange m a).lastScan = m.lastScan ∧
    (signalStateChange m a).pending = m.pending ∧
    (signalStateChange m a).futures = m.futures ∧
    (signalStateChange m a).nextTask = m.nextTask := by
  unfold signalStateChange
  rcases h : dictGet m.events (pyToUpper a) with _ | b <;> simp [h]

/-- Future-table update returns the written state on lookup of its id. -/
lemma futGet_futSet_self (l : List (Nat × FutState)) (k : Nat) (v : FutState) :
    futGet (futSet l k v) k = some v := by
  induction l with
  | nil => simp [futSet, futGet]
  | cons p t ih =>
    rcases p with ⟨k', v'⟩
    by_cases h : k' = k
    · simp [futSet, futGet, h]
    · simp [futSet, futGet, h, ih]

/-- Claim C8.  The pending-pairing map keys one request per (uppercased)
address: registering keeps the keys distinct, makes the new handle the one
stored for the address (any prior handle for it is overwritten), and leaves
exactly one entry for that address. -/
theorem pairing_register_unique :
    ∀ (m : Mgr) (a : String) (fid : Nat),
      (dictKeys m.pending).Nodup →
      (dictKeys (registerPairingRequest m a fid).pending).Nodup ∧
      dictGet (registerPairingRequest m a fid).pending (pyToUpper a) = some fid ∧
      (registerPairingRequest m a fid).pending.countP
          (fun p => decide (p.1 = pyToUpper a)) = 1 := by
  intro m a fid h
  unfold registerPairingRequest
  rw [(signalStateChange_parts _ _).2.2.1]
  exact ⟨nodup_dictKeys_dictInsert _ _ _ h, dictGet_dictInsert_self _ _ _,
    countP_dictInsert _ _ _ h⟩

/-- Witness for C8 on the freshly started manager. -/
theorem pairing_register_unique_witness :
    (dictKeys (registerPairingRequest mgr0 "aa:bb:cc:dd:ee:01" 7).pending).Nodup ∧
    dictGet (registerPairingRequest mgr0 "aa:bb:cc:dd:ee:01" 7).pending
        (pyToUpper "aa:bb:cc:dd:ee:01") = some 7 ∧
    (registerPairingRequest mgr0 "aa:bb:cc:dd:ee:01" 7).pending.countP
        (fun p => decide (p.1 = (pyToUpper "aa:bb:cc:dd:ee:01"))) = 1 :=
  pairing_register_unique mgr0 "aa:bb:cc:dd:ee:01" 7 (by decide)

/-- Submitting against an already resolved handle fails and changes
nothing (the stored handle is `done`). -/
lemma submitPin_done (m' : Mgr) (a p' v : String) (fid : Nat)
    (h1 : dictGet m'.pending (pyToUpper a) = some fid)
    (h2 : futGet m'.futures fid = some (FutState.resolved v)) :
    submitPin m' a p' = (m', false) := by
  simp [submitPin, h1, h2]

/-- Claim C7.  Submitting a passkey with no pending request reports
not-found and leaves the state untouched; with a pending unresolved
request it resolves the handle and reports success; and the same
registration cannot be resolved twice: the second submission fails and
changes nothing. -/
theorem submit_pin_spec :
    (∀ (m : Mgr) (a p : String),
      dictGet m.pending (pyToUpper a) = none → submitPin m a p = (m, false)) ∧
    (∀ (m : Mgr) (a p p' : String) (fid : Nat),
      dictGet m.pending (pyToUpper a) = some fid →
      futGet m.futures fid = some FutState.pending →
      (submitPin m a p).2 = true ∧
      futGet (submitPin m a p).1.futures fid = some (FutState.resolved p) ∧
      submitPin (submitPin m a p).1 a p' = ((submitPin m a p).1, false)) := by
  constructor
  · intro m a p h
    simp [submitPin, h]
  · intro m a p p' fid h1 h2
    have hres : (submitPin m a p).1
        = signalStateChange
            { m with futures := futSet m.futures fid (FutState.resolved p) } (pyToUpper a) := by
      simp [submitPin, h1, h2]
    refine ⟨by simp [submitPin, h1, h2], ?_, ?_⟩
    · rw [hres, (signalStateChange_parts _ _).2.2.2.1]
      exact futGet_futSet_self _ _ _
    · have hpend : (submitPin m a p).1.pending = m.pending := by
        rw [hres, (signalStateChange_parts _ _).2.2.1]
      have hfut : futGet (submitPin m a p).1.futures fid
          = some (FutState.resolved p) := by
        rw [hres, (signalStateChange_parts _ _).2.2.2.1]
        exact futGet_futSet_self _ _ _
      exact submitPin_done _ a p' p fid (by rw [hpend]; exact h1) hfut

/-- Witness for C7 at a manager with one pending unresolved request. -/
theorem submit_pin_spec_witness :
    (submitPin ⟨[], [], [("AA:BB:CC:DD:EE:01", 7)], [(7, FutState.pending)], [], 0⟩
        "AA:BB:CC:DD:EE:01" "482913").2 = true ∧
    futGet (submitPin ⟨[], [], [("AA:BB:CC:DD:EE:01", 7)], [(7, FutState.pending)], [], 0⟩
        "AA:BB:CC:DD:EE:01" "482913").1.futures 7 = some (FutState.resolved "482913") ∧
    submitPin (submitPin ⟨[], [], [("AA:BB:CC:DD:EE:01", 7)], [(7, FutState.pending)], [], 0⟩
        "AA:BB:CC:DD:EE:01" "482913").1 "AA:BB:CC:DD:EE:01" "111"
      = ((submitPin ⟨[], [], [("AA:BB:CC:DD:EE:01", 7)], [(7, FutState.pending)], [], 0⟩
        "AA:BB:CC:DD:EE:01" "482913").1, false) :=
  submit_pin_spec.2 ⟨[], [], [("AA:BB:CC:DD:EE:01", 7)], [(7, FutState.pending)], [], 0⟩
    "AA:BB:CC:DD:EE:01" "482913" "111" 7 rfl rfl

/-- `clear_pairing_request` leaves everything except the pending map and
the events untouched. -/
lemma clearPairingRequest_parts (m : Mgr) (a : String) :
    (clearPairingRequest m a).peripherals = m.peripherals ∧
    (clearPairingRequest m a).lastScan = m.lastScan ∧
    (clearPairingRequest m a).futures = m.futures ∧
    (clearPairingRequest m a).nextTask = m.nextTask := by
  unfold clearPairingRequest
  exact ⟨(signalStateChange_parts _ _).1, (signalStateChange_parts _ _).2.1,
    (signalStateChange_parts _ _).2.2.2.1, (signalStateChange_parts _ _).2.2.2.2⟩

/-- `get_state_event` touches only the event map. -/
lemma mgrEnsureEvent_parts (m : Mgr) (a : String) :
    (mgrEnsureEvent m a).peripherals = m.peripherals ∧
    (mgrEnsureEvent m a).lastScan = m.lastScan ∧
    (mgrEnsureEvent m a).nextTask = m.nextTask := by
  unfold mgrEnsureEvent
  rcases h : dictGet m.events (pyToUpper a) with _ | b <;> simp [h]

/-- `clear_state_event` touches only the event map. -/
lemma mgrClearEvent_parts (m : Mgr) (a : String) :
    (mgrClearEvent m a).peripherals = m.peripherals ∧
    (mgrClearEvent m a).lastScan = m.lastScan ∧
    (mgrClearEvent m a).nextTask = m.nextTask := by
  unfold mgrClearEvent
  rcases h : dictGet m.events (pyToUpper a) with _ | b <;> simp [h]

/-- The tail of a fresh connection: its trace extends the accumulated
events, a returned record carries the next task id, and on success the
scan cache holds exactly the latest sweep with the events listing a scan
before the task start. -/
lemma connectFresh2_shape (m : Mgr) (addr : String) (env : List Device)
    (evs : List MEvent) :
    (∃ tail, (connectFresh2 m addr env evs).2.2 = evs ++ tail) ∧
    (∀ r, (connectFresh2 m addr env evs).2.1 = Except.ok r →
      r.taskId = m.nextTask ∧
      (connectFresh2 m addr env evs).1.lastScan = scanUpdate env ∧
      (connectFresh2 m addr env evs).2.2
        = (evs ++ [MEvent.removedBluez, MEvent.scanned])
          ++ [MEvent.startedTask r.taskId]) := by
  have hnt : (mgrClearEvent (mgrEnsureEvent
      { clearPairingRequest m addr with lastScan := scanUpdate env } addr)
        addr).nextTask = m.nextTask := by
    rw [(mgrClearEvent_parts _ _).2.2, (mgrEnsureEvent_parts _ _).2.2]
    exact (clearPairingRequest_parts m addr).2.2.2
  have hls : (mgrClearEvent (mgrEnsureEvent
      { clearPairingRequest m addr with lastScan := scanUpdate env } addr)
        addr).lastScan = scanUpdate env := by
    rw [(mgrClearEvent_parts _ _).2.1, (mgrEnsureEvent_parts _ _).2.1]
  unfold connectFresh2
  rcases h : dictGet (scanUpdate env) addr with _ | d
  · simp only [h]
    exact ⟨⟨[MEvent.removedBluez, MEvent.scanned], by simp⟩,
      fun r hr => absurd hr (by simp)⟩
  · simp only [h]
    refine ⟨⟨[MEvent.removedBluez, MEvent.scanned,
        MEvent.startedTask (mgrClearEvent (mgrEnsureEvent
          { clearPairingRequest m addr with lastScan := scanUpdate env } addr)
            addr).nextTask], by simp⟩,
      fun r hr => ?_⟩
    have hr' : r = ⟨recNameOf d, "disconnected",
        (mgrClearEvent (mgrEnsureEvent
          { clearPairingRequest m addr with lastScan := scanUpdate env } addr)
            addr).nextTask, false⟩ := by
      cases hr
      rfl
    subst hr'
    refine ⟨hnt, hls, by simp⟩

/-- `connectFresh` (the scan-cache check plus the fresh-connection tail):
the trace extends the accumulated events, a returned record carries the
next task id, and on success the cache was wholly replaced by the latest
sweep and a scan precedes the task start in the trace. -/
lemma connectFresh_shape (m : Mgr) (addr : String) (env : List Device)
    (evs : List MEvent) :
    (∃ tail, (connectFresh m addr env evs).2.2 = evs ++ tail) ∧
    (∀ r, (connectFresh m addr env evs).2.1 = Except.ok r →
      r.taskId = m.nextTask ∧
      (connectFresh m addr env evs).1.lastScan = scanUpdate env ∧
      ∃ l, (connectFresh m addr env evs).2.2 = l ++ [MEvent.startedTask r.taskId] ∧
        MEvent.scanned ∈ l) := by
  unfold connectFresh
  rcases h0 : dictGet m.lastScan addr with _ | d0
  · simp only [h0]
    rcases h1 : dictGet (scanUpdate env) addr with _ | d1
    · simp only [h1]
      exact ⟨⟨[MEvent.scanned], by simp⟩, fun r hr => absurd hr (by simp)⟩
    · simp only [h1]
      obtain ⟨⟨tail, htail⟩, hok⟩ :=
        connectFresh2_shape { m with lastScan := scanUpdate env } addr env
          (evs ++ [MEvent.scanned])
      refine ⟨⟨[MEvent.scanned] ++ tail, by rw [htail, List.append_assoc]⟩,
        fun r hr => ?_⟩
      obtain ⟨hid, hscan, hevs⟩ := hok r hr
      exact ⟨hid, hscan,
        ⟨(evs ++ [MEvent.scanned]) ++ [MEvent.removedBluez, MEvent.scanned],
         hevs, by simp⟩⟩
  · simp only [h0]
    obtain ⟨⟨tail, htail⟩, hok⟩ := connectFresh2_shape m addr env evs
    refine ⟨⟨tail, htail⟩, fun r hr => ?_⟩
    obtain ⟨hid, hscan, hevs⟩ := hok r hr
    exact ⟨hid, hscan,
      ⟨evs ++ [MEvent.removedBluez, MEvent.scanned], hevs, by simp⟩⟩

/-- Claim C6.  `connect_to_device` on an address whose record is already
`connected` returns that record with the manager unchanged and no task
started or stopped; on an address with a record in any other status, the
trace begins by stopping that record's task, and any fresh record created
afterwards carries a new task id. -/
theorem connect_idempotent_spec :
    (∀ (m : Mgr) (addr : String) (env : List Device) (ex : PeriphRec),
      dictGet m.peripherals addr = some ex → ex.status = "connected" →
      connectToDevice m addr env = (m, Except.ok ex, [])) ∧
    (∀ (m : Mgr) (addr : String) (env : List Device) (ex : PeriphRec),
      dictGet m.peripherals addr = some ex → ex.status ≠ "connected" →
      (∃ tail, (connectToDevice m addr env).2.2
          = MEvent.stoppedTask ex.taskId :: tail) ∧
      (∀ r, (connectToDevice m addr env).2.1 = Except.ok r →
        r.taskId = m.nextTask)) := by
  constructor
  · intro m addr env ex h1 h2
    simp [connectToDevice, h1, h2]
  · intro m addr env ex h1 h2
    have hgoal : connectToDevice m addr env
        = connectFresh { m with peripherals := dictRemove m.peripherals addr }
            addr env [MEvent.stoppedTask ex.taskId] := by
      simp [connectToDevice, h1, h2]
    obtain ⟨⟨tail, htail⟩, hok⟩ :=
      connectFresh_shape { m with peripherals := dictRemove m.peripherals addr }
        addr env [MEvent.stoppedTask ex.taskId]
    constructor
    · exact ⟨tail, by rw [hgoal, htail]; simp⟩
    · intro r hr
      have := (hok r (by rw [← hgoal]; exact hr)).1
      simpa using this

/-- Witness for C6 at a manager holding one already connected record. -/
theorem connect_idempotent_spec_witness :
    connectToDevice
        ⟨[("AA:BB:CC:DD:EE:01", ⟨"RoomSense-1", "connected", 0, false⟩)],
         [], [], [], [], 1⟩
        "AA:BB:CC:DD:EE:01" []
      = (⟨[("AA:BB:CC:DD:EE:01", ⟨"RoomSense-1", "connected", 0, false⟩)],
          [], [], [], [], 1⟩,
         Except.ok ⟨"RoomSense-1", "connected", 0, false⟩, []) :=
  connect_idempotent_spec.1
    ⟨[("AA:BB:CC:DD:EE:01", ⟨"RoomSense-1", "connected", 0, false⟩)],
     [], [], [], [], 1⟩
    "AA:BB:CC:DD:EE:01" [] ⟨"RoomSense-1", "connected", 0, false⟩ rfl rfl

/-- Claim C10.  Every `connect_to_device` call that proceeds past the
idempotent case and returns a fresh record performed at least one full
scan sweep before starting the record's task — even if the address was
already cached — and left the scan cache wholly replaced by the latest
sweep. -/
theorem connect_always_rescans :
    ∀ (m : Mgr) (addr : String) (env : List Device) (r : PeriphRec),
      (∀ ex, dictGet m.peripherals addr = some ex → ex.status ≠ "connected") →
      (connectToDevice m addr env).2.1 = Except.ok r →
      (connectToDevice m addr env).1.lastScan = scanUpdate env ∧
      ∃ l, (connectToDevice m addr env).2.2 = l ++ [MEvent.startedTask r.taskId] ∧
        MEvent.scanned ∈ l := by
  intro m addr env r hnc hok
  rcases h1 : dictGet m.peripherals addr with _ | ex
  · have hgoal : connectToDevice m addr env = connectFresh m addr env [] := by
      simp [connectToDevice, h1]
    rw [hgoal] at hok ⊢
    obtain ⟨-, hshape⟩ := connectFresh_shape m addr env []
    obtain ⟨-, hscan, hl⟩ := hshape r hok
    exact ⟨hscan, hl⟩
  · have h2 := hnc ex h1
    have hgoal : connectToDevice m addr env
        = connectFresh { m with peripherals := dictRemove m.peripherals addr }
            addr env [MEvent.stoppedTask ex.taskId] := by
      simp [connectToDevice, h1, h2]
    rw [hgoal] at hok ⊢
    obtain ⟨-, hshape⟩ :=
      connectFresh_shape { m with peripherals := dictRemove m.peripherals addr }
        addr env [MEvent.stoppedTask ex.taskId]
    obtain ⟨-, hscan, hl⟩ := hshape r hok
    exact ⟨hscan, hl⟩

/-- Witness for C10: connecting to a freshly discovered device from the
empty manager scans and replaces the cache before starting task 0. -/
theorem connect_always_rescans_witness :
    (connectToDevice mgr0 "AA:BB:CC:DD:EE:01"
        [⟨"AA:BB:CC:DD:EE:01", some "RoomSense-1", none⟩]).1.lastScan
      = scanUpdate [⟨"AA:BB:CC:DD:EE:01", some "RoomSense-1", none⟩] ∧
    ∃ l, (connectToDevice mgr0 "AA:BB:CC:DD:EE:01"
        [⟨"AA:BB:CC:DD:EE:01", some "RoomSense-1", none⟩]).2.2
        = l ++ [MEvent.startedTask
            (⟨"RoomSense-1", "disconnected", 0, false⟩ : PeriphRec).taskId] ∧
      MEvent.scanned ∈ l :=
  connect_always_rescans mgr0 "AA:BB:CC:DD:EE:01"
    [⟨"AA:BB:CC:DD:EE:01", some "RoomSense-1", none⟩]
    ⟨"RoomSense-1", "disconnected", 0, false⟩
    (fun _ h => Option.noConfusion h) rfl

/-- Claim C9, counterexample.  Disconnecting an address with no record does
not fail in the hardware manager: the operation still returns normally
(`pop` with a default plus a guarded delete), contradicting the claim that
it fails when no record exists. -/
theorem disconnect_absent_no_error :
    dictGet mgr0.peripherals (normalizeMac "AA:BB:CC:DD:EE:01") = none ∧
    (disconnectFromDevice mgr0 "AA:BB:CC:DD:EE:01").2.1 = Except.ok () :=
  ⟨rfl, rfl⟩

/-- Claim C9, amended.  `disconnect_from_device` removes the record for the
normalized address and stops its task when one is present, and removes the
address's state-change signal in every case; when no record exists the
hardware manager succeeds as a no-op apart from the signal removal (it is
the simulation variant that fails on an absent record). -/
theorem disconnect_spec :
    (∀ (m : Mgr) (address : String) (conn : PeriphRec),
      dictGet m.peripherals (normalizeMac address) = some conn →
      disconnectFromDevice m address
        = ({ m with peripherals := dictRemove m.peripherals (normalizeMac address),
                    events := dictRemove m.events (normalizeMac address) },
           Except.ok (), [MEvent.stoppedTask conn.taskId])) ∧
    (∀ (m : Mgr) (address : String),
      dictGet m.peripherals (normalizeMac address) = none →
      disconnectFromDevice m address
        = ({ m with events := dictRemove m.events (normalizeMac address) },
           Except.ok (), [])) ∧
    (∀ (peris : List (String × PeriphRec)) (address : String),
      dictGet peris address = none →
      simDisconnectFromDevice peris address = Except.error ()) := by
  refine ⟨fun m address conn h => ?_, fun m address h => ?_,
    fun peris address h => ?_⟩
  · simp [disconnectFromDevice, h]
  · simp [disconnectFromDevice, h]
  · simp [simDisconnectFromDevice, h]

/-- Witness for the amended C9 at a manager holding one record and its
signal. -/
theorem disconnect_spec_witness :
    disconnectFromDevice
        ⟨[("AA:BB:CC:DD:EE:02", ⟨"RoomSense-2", "connected", 3, false⟩)],
         [], [], [], [("AA:BB:CC:DD:EE:02", false)], 4⟩
        "aa-bb-cc-dd-ee-02"
      = (⟨dictRemove [("AA:BB:CC:DD:EE:02", ⟨"RoomSense-2", "connected", 3, false⟩)]
            (normalizeMac "aa-bb-cc-dd-ee-02"),
          [], [], [],
          dictRemove [("AA:BB:CC:DD:EE:02", false)] (normalizeMac "aa-bb-cc-dd-ee-02"),
          4⟩,
         Except.ok (), [MEvent.stoppedTask 3]) :=
  disconnect_spec.1
    ⟨[("AA:BB:CC:DD:EE:02", ⟨"RoomSense-2", "connected", 3, false⟩)],
     [], [], [], [("AA:BB:CC:DD:EE:02", false)], 4⟩
    "aa-bb-cc-dd-ee-02" ⟨"RoomSense-2", "connected", 3, false⟩ rfl
